import Mathlib

/-
Verification development for the cyberark_account module
(src/plugins/modules/cyberark_account.py).

The module reconciles a desired-state description of a single vault
account record against a remote HTTP API.  The embedding below models
the pure decision logic of the module: JSON-like values, the field
rename tables, the dotted-path getter deep_get, the JSON-Patch builder
of update_account, the create payload of add_account, the rotation
decision of reset_account_if_needed, and the lookup/matching logic of
get_account.  HTTP transport, TLS and session token plumbing are
external collaborators and are represented by explicit inputs
(the parsed response data or the HTTP error code of the one GET that
get_account issues).  Python exceptions are modelled with Except String,
the error string naming the Python exception class that would be raised.

Python None is modelled as Value.null.  A Python dict is modelled as an
association list in insertion order with unique keys; lookups take the
first matching entry, which coincides with dict semantics on key-unique
lists.
-/

namespace CyberarkAccount

/-- JSON-like values as handled by the module: Python None, str, bool,
int and (one or more levels of) dict. -/
inductive Value where
  | null : Value
  | str (s : String) : Value
  | bool (b : Bool) : Value
  | int (n : Int) : Value
  | dict (d : List (String × Value)) : Value

/-- A Python dict from field names to values, in insertion order. -/
abbrev Entries := List (String × Value)

mutual

/-- Structural equality on values, mirroring Python == on the JSON
types the module handles. -/
def Value.beq : Value → Value → Bool
  | .null, .null => true
  | .str s, .str t => s == t
  | .bool a, .bool b => a == b
  | .int m, .int n => m == n
  | .dict d, .dict e => entriesBeq d e
  | _, _ => false

/-- Structural equality on dicts (ordered, as in the model). -/
def entriesBeq : Entries → Entries → Bool
  | [], [] => true
  | (k, v) :: r, (k2, v2) :: r2 => k == k2 && Value.beq v v2 && entriesBeq r r2
  | _, _ => false

end

mutual

theorem Value.beq_iff : ∀ (a b : Value), (Value.beq a b = true) ↔ a = b
  | .null, b => by cases b <;> simp [Value.beq]
  | .str s, b => by cases b <;> simp [Value.beq]
  | .bool x, b => by cases b <;> simp [Value.beq]
  | .int m, b => by cases b <;> simp [Value.beq]
  | .dict d, b => by
      cases b <;> simp [Value.beq]
      case dict e => exact entriesBeq_iff d e

theorem entriesBeq_iff : ∀ (l m : Entries), (entriesBeq l m = true) ↔ l = m
  | [], m => by cases m <;> simp [entriesBeq]
  | (k, v) :: r, [] => by simp [entriesBeq]
  | (k, v) :: r, (k2, v2) :: r2 => by
      have h1 := Value.beq_iff v v2
      have h2 := entriesBeq_iff r r2
      simp [entriesBeq, h1, h2, and_assoc]

end

instance : DecidableEq Value := fun a b => decidable_of_iff _ (Value.beq_iff a b)

deriving instance DecidableEq for Except

/-- Python `dct[k] if k in dct else None` reading of an association
list: first binding for k, or none. -/
def lookupKey : Entries → String → Option Value
  | [], _ => none
  | (k2, v) :: r, k => if k2 = k then some v else lookupKey r k

/-- Python `k in dct`. -/
def containsKey (d : Entries) (k : String) : Bool :=
  (lookupKey d k).isSome

/-- Python `dct[k] = v`: replace the first binding in place, or append
a new binding at the end (dict insertion-order semantics). -/
def setKey (d : Entries) (k : String) (v : Value) : Entries :=
  match d with
  | [] => [(k, v)]
  | (k2, v2) :: rest => if k2 = k then (k, v) :: rest else (k2, v2) :: setKey rest k v

/-- Python `del dct[k]` on a key-unique dict: drop the binding for k. -/
def removeKey : Entries → String → Entries
  | [], _ => []
  | (k2, v) :: r, k => if k2 = k then removeKey r k else (k2, v) :: removeKey r k

/-- The source helper referenced_value specialised to value dicts:
`dct[field] if field in dct.keys() else None` (default None, as at its
call sites inside update_account). -/
def refValue (k : String) (d : Entries) : Value :=
  (lookupKey d k).getD .null

/-- Python str() of a value, as used when values are interpolated into
the search string and endpoint paths.  The dict arm is a placeholder:
no claim evaluates str() on a dict. -/
def pyStr : Value → String
  | .null => "None"
  | .str s => s
  | .bool b => if b then "True" else "False"
  | .int n => toString n
  | .dict _ => "<dict>"

/-- The ansible_specific_parameters list of the source (lines 88-97). -/
def ansible_specific_parameters : List String :=
  ["state", "api_base_url",
   "validate_certs",
   "cyberark_session",
   "identified_by",
   "logging_level",
   "logging_file",
   "new_secret",
   "secret_management.management_action",
   "secret_management.new_secret",
   "management_action"]

/-- The cyberark_nonremovable_properties list of the source
(lines 99-104).  Note: the source declares this list but never
consults it. -/
def cyberark_nonremovable_properties : List String :=
  ["createdTime",
   "id",
   "name",
   "lastModifiedTime",
   "safeName",
   "secretType"]

/-- The removal sentinel (line 105). -/
def removal_value : Value := .str "NO_VALUE"

/-- The cyberark_reference_fieldnames rename table (lines 107-116),
ansible-side name to vault-side name. -/
def cyberark_reference_fieldnames : List (String × String) :=
  [("username", "userName"),
   ("safe", "safeName"),
   ("platform_id", "platformId"),
   ("secret_type", "secretType"),
   ("platform_account_properties", "platformAccountProperties"),
   ("secret_management", "secretManagement"),
   ("manual_management_reason", "manualManagementReason"),
   ("automatic_management_enabled", "automaticManagementEnabled")]

/-- referenced_value applied to the rename table with the name itself
as default: forward ansible-to-vault translation with identity
fallthrough. -/
def translate (k : String) : String :=
  match cyberark_reference_fieldnames.find? (fun p => p.1 == k) with
  | some p => p.2
  | none => k

/-- Character-level splitter with Python str.split semantics:
pySplitChars sep "a.b" = ["a","b"], pySplitChars sep "" = [""], a
trailing separator yields a trailing empty piece. -/
def pySplitChars (sep : Char) : List Char → List (List Char)
  | [] => [[]]
  | c :: rest =>
      let r := pySplitChars sep rest
      if c = sep then [] :: r
      else
        match r with
        | h :: t => (c :: h) :: t
        | [] => [[c]]

/-- Python str.split(sep) for a one-character separator. -/
def pySplit (s : String) (sep : Char) : List String :=
  (pySplitChars sep s.data).map (fun l => String.mk l)

/-- One step of the deep_get loop (lines 432-442): reset an empty
current dict to the root, translate the segment when the reference
table is in use, look the translated segment up with fallback to the
untranslated one.  A KeyError is catchable by the caller; calling
.keys() on a non-dict raises AttributeError, which deep_get does not
catch. -/
def deep_get_step (root : Entries) (cur : Value) (key : String) (useTable : Bool) :
    Except String Value :=
  let key_field := if useTable then translate key else key
  match cur with
  | .dict d =>
      let d2 := if d.isEmpty then root else d
      match lookupKey d2 key_field with
      | some v => .ok v
      | none =>
          match lookupKey d2 key with
          | some v => .ok v
          | none => .error "KeyError"
  | _ => .error "AttributeError"

/-- Loop body of deep_get: fold the path segments, returning the
default on KeyError (when one is given) and propagating any other
exception. -/
def deep_get_go (root : Entries) (default : Option Value) (useTable : Bool) :
    Value → List String → Except String Value
  | cur, [] => .ok cur
  | cur, k :: rest =>
      match deep_get_step root cur k useTable with
      | .ok v => deep_get_go root default useTable v rest
      | .error e =>
          if e = "KeyError" then
            match default with
            | some dv => .ok dv
            | none => .error "KeyError"
          else .error e

/-- The source deep_get (lines 429-449): walk a dotted path through
nested dicts.  `default = none` models the _empty sentinel (no default:
KeyError propagates). -/
def deep_get (dct : Entries) (dotted_path : String) (default : Option Value)
    (useTable : Bool) : Except String Value :=
  deep_get_go dct default useTable (.dict []) (pySplit dotted_path '.')

/-- JSON-Patch operation kinds used by update_account. -/
inductive OpKind where
  | add : OpKind
  | replace : OpKind
  | remove : OpKind
deriving DecidableEq

/-- One entry of the Operations array built by update_account: op kind,
JSON-pointer path (as its segment list) and, for add/replace, a value.
The rendered path string of the payload is renderPath of the segments. -/
structure PatchOp where
  op : OpKind
  path : List String
  value : Option Value
deriving DecidableEq

/-- The path string as the source renders it: "/seg" or "/seg1/seg2". -/
def renderPath (segs : List String) : String :=
  String.join (segs.map (fun s => "/" ++ s))

/-- Patch operations for one child key of a dict-valued parameter
(lines 157-174), given the child desired value cv and the child
existing value cev (referenced_value of the translated child name in
the existing sub-object, None when absent). -/
def childOps1 (pn pcy cn : String) (cv : Value) (cev : Value) : List PatchOp :=
  if (pn ++ "." ++ cn) ∈ ansible_specific_parameters then []
  else
    let ccy := translate cn
    if cev ≠ .null then
      if cv = removal_value then [⟨.remove, [pcy, ccy], none⟩]
      else if cev ≠ cv then [⟨.replace, [pcy, ccy], some cv⟩]
      else []
    else if cv ≠ .null ∧ cv ≠ removal_value then [⟨.add, [pcy, ccy], some cv⟩]
    else []

/-- Patch operations for all children of a dict-valued parameter whose
existing value is the sub-dict ed, in declaration order. -/
def childOps (pn pcy : String) (ed : Entries) : Entries → List PatchOp
  | [] => []
  | c :: rest => childOps1 pn pcy c.1 c.2 (refValue (translate c.1) ed) ++ childOps pn pcy ed rest

/-- The scalar (non-dict) arm of the parameter loop (lines 175-184):
remove when the desired value is the sentinel and the existing value is
non-null, replace when they differ, add when the existing value is null
and the desired value is not the sentinel, nothing otherwise. -/
def scalarOps (pcy : String) (pv ev : Value) : List PatchOp :=
  if ev ≠ .null then
    if pv = removal_value then [⟨.remove, [pcy], none⟩]
    else if ev ≠ pv then [⟨.replace, [pcy], some pv⟩]
    else []
  else if pv ≠ removal_value then [⟨.add, [pcy], some pv⟩]
  else []

/-- Patch operations contributed by one parameter (lines 150-185),
given its desired value pv and the existing value ev for its translated
name.  A dict-valued parameter whose existing value is not a dict makes
the source call .keys() on a non-dict (line 162) as soon as one child
survives the control-parameter filter: AttributeError. -/
def paramOps1 (pn : String) (pv : Value) (ev : Value) : Except String (List PatchOp) :=
  if pn ∈ ansible_specific_parameters ∨ pv = .null then .ok []
  else
    match pv with
    | .dict children =>
        match ev with
        | .dict ed => .ok (childOps pn (translate pn) ed children)
        | _ =>
            if children.all (fun c => decide ((pn ++ "." ++ c.1) ∈ ansible_specific_parameters))
            then .ok []
            else .error "AttributeError"
    | _ => .ok (scalarOps (translate pn) pv ev)

/-- The Operations list update_account builds (lines 147-185): iterate
the parameters in declaration order, appending each contribution; the
first Python exception aborts the whole call. -/
def update_account_ops : Entries → Entries → Except String (List PatchOp)
  | [], _ => .ok []
  | p :: rest, existing => do
      let l ← paramOps1 p.1 p.2 (refValue (translate p.1) existing)
      let ls ← update_account_ops rest existing
      pure (l ++ ls)

/-- Effect of one two-segment patch operation on the parent sub-dict. -/
def innerPatch (d : Entries) (op : PatchOp) : Entries :=
  match op.path, op.op, op.value with
  | [_, c], .remove, _ => removeKey d c
  | [_, c], _, some v => setKey d c v
  | _, _, _ => d

/-- Apply one patch operation to a record: top-level add/replace set the
key, remove deletes it; a two-segment path edits the named sub-dict in
place when the parent is present as a dict. -/
def applyOp (e : Entries) (op : PatchOp) : Entries :=
  match op.path with
  | [k] =>
      (match op.op, op.value with
       | .remove, _ => removeKey e k
       | _, some v => setKey e k v
       | _, none => e)
  | [p, _] =>
      (match lookupKey e p with
       | some (.dict d) => setKey e p (.dict (innerPatch d op))
       | _ => e)
  | _ => e

/-- Apply a patch operation list left to right. -/
def applyOps (e : Entries) (ops : List PatchOp) : Entries :=
  ops.foldl applyOp e

/-- Python `dct[k]`: the binding, or a KeyError. -/
def require (d : Entries) (k : String) : Except String Value :=
  match lookupKey d k with
  | some v => .ok v
  | none => .error "KeyError"

/-- Loop of add_account (lines 243-253): build the create payload by
inserting each non-control, non-null parameter under its translated
name (rename-table members) or its own name (passthrough), skipping
values equal to the removal sentinel.  The lookup goes through deep_get
against the full parameter dict. -/
def add_account_go (params : Entries) (payload : Entries) : Entries → Except String Entries
  | [] => .ok payload
  | (pn, pv) :: rest =>
      if pn ∈ ansible_specific_parameters ∨ pv = .null then
        add_account_go params payload rest
      else if (cyberark_reference_fieldnames.find? (fun q => q.1 == pn)).isSome then do
        let v ← deep_get params pn none true
        add_account_go params
          (if v = removal_value then payload else setKey payload (translate pn) v) rest
      else do
        let v ← deep_get params pn none false
        add_account_go params
          (if v = removal_value then payload else setKey payload pn v) rest

/-- The JSON payload add_account posts to the create endpoint
(lines 241-257), starting from safeName taken directly from the safe
parameter (a KeyError when absent). -/
def add_account_payload (params : Entries) : Except String Entries := do
  let safeV ← require params "safe"
  add_account_go params [("safeName", safeV)] params

/-- Reading of a secret_management sub-object key as the dotted
deep_get call resolves it in the well-formed cases: the literal
"NOT_FOUND" when the sub-object or the key is missing, the stored value
otherwise. -/
def smLookup (params : Entries) (k : String) : Value :=
  match lookupKey params "secret_management" with
  | some (.dict d) => (lookupKey d k).getD (.str "NOT_FOUND")
  | _ => .str "NOT_FOUND"

/-- The secret_management parameter shapes on which deep_get of the two
dotted control paths completes: absent entirely, or a non-empty dict.
A null (or other non-dict) value makes deep_get call .keys() on it
(AttributeError); an empty dict makes deep_get fall back to the root
dict. -/
def smGuard (params : Entries) : Prop :=
  lookupKey params "secret_management" = none ∨
    ∃ d, lookupKey params "secret_management" = some (.dict d) ∧ d ≠ []

instance (params : Entries) : Decidable (smGuard params) := by
  unfold smGuard
  cases h : lookupKey params "secret_management" with
  | none => exact .isTrue (Or.inl rfl)
  | some v =>
      cases v with
      | dict d =>
          cases d with
          | nil => exact .isFalse (by simp)
          | cons a l => exact .isTrue (Or.inr ⟨a :: l, rfl, by simp⟩)
      | null => exact .isFalse (by simp)
      | str s => exact .isFalse (by simp)
      | bool b => exact .isFalse (by simp)
      | int n => exact .isFalse (by simp)

/-- An explicit caller-supplied secret_management.new_secret: neither
Python None nor the missing-value literal. -/
def explicitSecret (v : Value) : Bool :=
  decide (v ≠ .null ∧ v ≠ .str "NOT_FOUND")

/-- The if/elif rule chain of reset_account_if_needed (lines 353-374),
over the two deep_get results ma and ns: the chosen endpoint and POST
payload, none when no branch fires.  Each firing branch interpolates
the id of the existing record (a KeyError when absent, as in Python). -/
def rotation_rules (ma ns : Value) (params existing : Entries) :
    Except String (Option (String × Entries)) :=
  if ma = .str "change" ∧ ns ≠ .null ∧ ns ≠ .str "NOT_FOUND" then do
    let idv ← require existing "id"
    pure (some ("/PasswordVault/API/Accounts/" ++ pyStr idv ++ "/SetNextPassword",
      [("ChangeImmediately", .bool false), ("NewCredentials", ns)]))
  else if ma = .str "change_immediately" ∧ (ns = .str "NOT_FOUND" ∨ ns = .null) then do
    let idv ← require existing "id"
    pure (some ("/PasswordVault/API/Accounts/" ++ pyStr idv ++ "/Change",
      [("ChangeEntireGroup", .bool false)]))
  else if ma = .str "change_immediately" ∧ (ns ≠ .null ∧ ns ≠ .str "NOT_FOUND") then do
    let idv ← require existing "id"
    pure (some ("/PasswordVault/API/Accounts/" ++ pyStr idv ++ "/SetNextPassword",
      [("ChangeImmediately", .bool true), ("NewCredentials", ns)]))
  else if ma = .str "reconcile" then do
    let idv ← require existing "id"
    pure (some ("/PasswordVault/API/Accounts/" ++ pyStr idv ++ "/Reconcile", []))
  else
    match lookupKey params "new_secret" with
    | some v =>
        if v ≠ .null then do
          let idv ← require existing "id"
          pure (some ("/PasswordVault/API/Accounts/" ++ pyStr idv ++ "/Password/Update",
            [("ChangeEntireGroup", .bool true), ("NewCredentials", v)]))
        else pure none
    | none => pure none

/-- The rotation decision of reset_account_if_needed (lines 344-374):
read the two secret_management control values with deep_get exactly as
the source does (so a null secret_management parameter raises before
any rule is evaluated), then run the rule chain. -/
def reset_rotation_decision (params existing : Entries) :
    Except String (Option (String × Entries)) := do
  let ma ← deep_get params "secret_management.management_action" (some (.str "NOT_FOUND")) false
  let ns ← deep_get params "secret_management.new_secret" (some (.str "NOT_FOUND")) false
  rotation_rules ma ns params existing

/-- Statement of the five rotation rules as the specification words
them, as a first-match priority list over the management-action
directive ma and the sub-object secret ns: (1) change with an explicit
secret, (2) change_immediately without one, (3) change_immediately with
one, (4) reconcile, (5) a non-null top-level new_secret; no match means
no rotation call. -/
def rotation_spec_rules (ma ns : Value) (params existing : Entries) :
    Except String (Option (String × Entries)) :=
  if ma = .str "change" ∧ explicitSecret ns then do
    let idv ← require existing "id"
    pure (some ("/PasswordVault/API/Accounts/" ++ pyStr idv ++ "/SetNextPassword",
      [("ChangeImmediately", .bool false), ("NewCredentials", ns)]))
  else if ma = .str "change_immediately" ∧ ¬ explicitSecret ns then do
    let idv ← require existing "id"
    pure (some ("/PasswordVault/API/Accounts/" ++ pyStr idv ++ "/Change",
      [("ChangeEntireGroup", .bool false)]))
  else if ma = .str "change_immediately" then do
    let idv ← require existing "id"
    pure (some ("/PasswordVault/API/Accounts/" ++ pyStr idv ++ "/SetNextPassword",
      [("ChangeImmediately", .bool true), ("NewCredentials", ns)]))
  else if ma = .str "reconcile" then do
    let idv ← require existing "id"
    pure (some ("/PasswordVault/API/Accounts/" ++ pyStr idv ++ "/Reconcile", []))
  else
    match lookupKey params "new_secret" with
    | some v =>
        if v ≠ .null then do
          let idv ← require existing "id"
          pure (some ("/PasswordVault/API/Accounts/" ++ pyStr idv ++ "/Password/Update",
            [("ChangeEntireGroup", .bool true), ("NewCredentials", v)]))
        else pure none
    | none => pure none

/-- The five specification rules applied to the sub-object values as
the specification reads them directly off the secret_management
parameter. -/
def rotation_spec (params existing : Entries) : Except String (Option (String × Entries)) :=
  rotation_spec_rules (smLookup params "management_action") (smLookup params "new_secret")
    params existing

/-- The free-text search-string loop of get_account (lines 458-461):
every identified_by field outside the control set contributes its
deep_get resolution (str-formatted, default the literal "NOT FOUND"),
joined by single spaces onto the accumulator. -/
def build_search_string (params : Entries) : List String → Option String → Except String (Option String)
  | [], acc => .ok acc
  | f :: rest, acc =>
      if f ∈ ansible_specific_parameters then build_search_string params rest acc
      else do
        let v ← deep_get params f (some (.str "NOT FOUND")) false
        build_search_string params rest
          (some ((match acc with | some s => s ++ " " | none => "") ++ pyStr v))

/-- Single-segment deep_get as a total function with an explicit
default: the translated key first, the untranslated fallback, then the
default. -/
def dg1 (d : Entries) (f : String) (useTable : Bool) (dv : Value) : Value :=
  let kf := if useTable then translate f else f
  match lookupKey d kf with
  | some v => v
  | none =>
      match lookupKey d f with
      | some v => v
      | none => dv

/-- One comparison of the matcher (line 512): the record-side value
must be present (not the "NOT FOUND" default) and equal the
parameter-side value. -/
def field_match (params rec : Entries) (f : String) : Bool :=
  if dg1 rec f true (.str "NOT FOUND") = .str "NOT FOUND" then false
  else decide (dg1 rec f true (.str "NOT FOUND") = dg1 params f false (.str "NOT FOUND"))

/-- Specification-level reading of the per-record loop (lines 507-516):
a record matches when every identified_by field matches (and the field
list is non-empty, since the found flag starts False). -/
def matchesB (params : Entries) (fields : List String) (rec : Entries) : Bool :=
  !fields.isEmpty && fields.all (field_match params rec)

/-- The inner found-loop of get_account (lines 507-516), with the
deep_get calls made exactly as the source makes them (so a dotted field
can raise). -/
def found_in_record_go (params rec : Entries) (found : Bool) :
    List String → Except String Bool
  | [] => .ok found
  | f :: rest => do
      let rv ← deep_get rec f (some (.str "NOT FOUND")) true
      if rv ≠ .str "NOT FOUND" then do
        let pv ← deep_get params f (some (.str "NOT FOUND")) false
        if rv = pv then found_in_record_go params rec true rest
        else .ok false
      else .ok false

/-- Whether one returned record matches the caller values on every
identified_by field. -/
def found_in_record (params rec : Entries) (fields : List String) : Except String Bool :=
  found_in_record_go params rec false fields

/-- The counting loop of get_account (lines 503-520): number of
all-field matches and the first matching record. -/
def get_account_scan (params : Entries) (fields : List String) :
    List Entries → Nat → Option Entries → Except String (Nat × Option Entries)
  | [], n, first => .ok (n, first)
  | r :: rest, n, first => do
      let f ← found_in_record params r fields
      if f then
        get_account_scan params fields rest (n + 1)
          (match first with | some x => some x | none => some r)
      else get_account_scan params fields rest n first

/-- The parsed body of the one GET get_account issues. -/
structure QueryData where
  count : Nat
  value : List Entries

/-- Outcome of the search GET: a parsed response with its status code,
or an HTTPError carrying its code. -/
inductive HttpResult where
  | success (data : QueryData) (code : Int) : HttpResult
  | httpError (code : Int) : HttpResult

/-- The get_account flow (lines 451-539) over an abstract transport
outcome: read identified_by, build the search string, read the safe,
session and state parameters the source subscripts unconditionally,
then either treat an HTTP 404 as a successful not-found (other HTTP
errors are fatal), or scan the returned records: zero count reports
not-found, more than one all-field match aborts, otherwise the result
is whether exactly one matched together with the first match. -/
def get_account (params : Entries) (resp : HttpResult) :
    Except String (Bool × Option Entries × Int) := do
  let ibv ← match lookupKey params "identified_by" with
            | some (.str s) => Except.ok s
            | some _ => Except.error "AttributeError"
            | none => Except.error "KeyError"
  let fields := pySplit ibv ','
  let _search ← build_search_string params fields none
  let _safe ← require params "safe"
  let _session ← require params "cyberark_session"
  let _state ← require params "state"
  match resp with
  | .httpError code =>
      if code = 404 then Except.ok (false, none, code) else Except.error "HTTPError"
  | .success data code =>
      if data.count = 0 then Except.ok (false, none, code)
      else do
        let scan ← get_account_scan params fields data.value 0 none
        if scan.1 > 1 then Except.error "TooManyRows"
        else Except.ok (scan.1 == 1, scan.2, code)

/-- The mutating call main selects (lines 606-619). -/
inductive MainAction where
  | create : MainAction
  | update : MainAction
  | delete : MainAction
  | noop : MainAction
deriving DecidableEq

/-- The dispatcher of main: present and not found creates, present and
found updates, absent and found deletes, otherwise nothing. -/
def main_action (state : String) (found : Bool) : MainAction :=
  if state = "present" then (if found then .update else .create)
  else if found ∧ state = "absent" then .delete
  else .noop

/-- Specification-level token list of the search string: every
identified_by field outside the control set contributes one token, the
str() of its parameter value (None formats as "None") or the literal
"NOT FOUND" when the parameter set has no such key. -/
def search_tokens (params : Entries) (fields : List String) : List String :=
  (fields.filter (fun f => !decide (f ∈ ansible_specific_parameters))).map
    (fun f => pyStr ((lookupKey params f).getD (.str "NOT FOUND")))

/-- Tokens joined by single spaces in list order; none when no token
contributed. -/
def joinTokens : List String → Option String
  | [] => none
  | t :: ts => some (ts.foldl (fun a b => a ++ " " ++ b) t)

/-- The accumulator form of the join, exactly as the source formats the
running search string. -/
def accJoin (acc : Option String) (ts : List String) : Option String :=
  ts.foldl
    (fun a t => some ((match a with | some s2 => s2 ++ " " | none => "") ++ t)) acc

theorem lookupKey_setKey_self (d : Entries) (k : String) (v : Value) :
    lookupKey (setKey d k v) k = some v := by
  induction d with
  | nil => simp [setKey, lookupKey]
  | cons p r ih =>
      obtain ⟨k2, v2⟩ := p
      by_cases h : k2 = k
      · simp [setKey, lookupKey, h]
      · simp [setKey, lookupKey, h, ih]

theorem lookupKey_setKey_ne (d : Entries) (k k2 : String) (v : Value) (h : k2 ≠ k) :
    lookupKey (setKey d k v) k2 = lookupKey d k2 := by
  induction d with
  | nil => simp [setKey, lookupKey, Ne.symm h]
  | cons p r ih =>
      obtain ⟨k3, v3⟩ := p
      by_cases h3 : k3 = k
      · subst h3
        simp [setKey, lookupKey, Ne.symm h]
      · by_cases h4 : k3 = k2
        · simp [setKey, lookupKey, h3, h4, h]
        · simp [setKey, lookupKey, h3, h4, ih]

theorem lookupKey_removeKey_self (d : Entries) (k : String) :
    lookupKey (removeKey d k) k = none := by
  induction d with
  | nil => simp [removeKey, lookupKey]
  | cons p r ih =>
      obtain ⟨k2, v2⟩ := p
      by_cases h : k2 = k
      · simpa [removeKey, lookupKey, h] using ih
      · simp [removeKey, lookupKey, h, ih]

theorem lookupKey_removeKey_ne (d : Entries) (k k2 : String) (h : k2 ≠ k) :
    lookupKey (removeKey d k) k2 = lookupKey d k2 := by
  induction d with
  | nil => simp [removeKey, lookupKey]
  | cons p r ih =>
      obtain ⟨k3, v3⟩ := p
      by_cases h3 : k3 = k
      · subst h3
        simp [removeKey, lookupKey, Ne.symm h, ih]
      · by_cases h4 : k3 = k2
        · simp [removeKey, lookupKey, h3, h4, h, ih]
        · simp [removeKey, lookupKey, h3, h4, ih]

theorem deep_get_single (d : Entries) (f : String) (dv : Value) (ut : Bool)
    (h : pySplit f '.' = [f]) :
    deep_get d f (some dv) ut = .ok (dg1 d f ut dv) := by
  unfold deep_get
  rw [h]
  cases hkf : lookupKey d (if ut then translate f else f) with
  | some v => simp [deep_get_go, deep_get_step, dg1, hkf]
  | none =>
      cases hf : lookupKey d f with
      | some v => simp [deep_get_go, deep_get_step, dg1, hkf, hf]
      | none => simp [deep_get_go, deep_get_step, dg1, hkf, hf]

theorem deep_get_go_default_rel (root : Entries) (dv : Value) (ut : Bool) :
    ∀ (segs : List String) (cur : Value),
      deep_get_go root (some dv) ut cur segs =
        (match deep_get_go root none ut cur segs with
         | .ok v => .ok v
         | .error e => if e = "KeyError" then .ok dv else .error e) := by
  intro segs
  induction segs with
  | nil => intro cur; rfl
  | cons k rest ih =>
      intro cur
      simp only [deep_get_go]
      cases hstep : deep_get_step root cur k ut with
      | ok v => exact ih v
      | error e =>
          by_cases he : e = "KeyError"
          · simp [he]
          · simp [he]

theorem deep_get_go_default_no_keyerror (root : Entries) (dv : Value) (ut : Bool) :
    ∀ (segs : List String) (cur : Value),
      deep_get_go root (some dv) ut cur segs ≠ .error "KeyError" := by
  intro segs
  induction segs with
  | nil => intro cur; simp [deep_get_go]
  | cons k rest ih =>
      intro cur
      simp only [deep_get_go]
      cases hstep : deep_get_step root cur k ut with
      | ok v => exact ih v
      | error e =>
          by_cases he : e = "KeyError"
          · simp [he]
          · simp only [he, if_false]
            intro hh
            exact he (Except.error.inj hh)

theorem deep_get_sm_key (params : Entries) (path key : String) (h : smGuard params)
    (hsplit : pySplit path '.' = ["secret_management", key]) :
    deep_get params path (some (.str "NOT_FOUND")) false = .ok (smLookup params key) := by
  unfold deep_get
  rw [hsplit]
  rcases h with habs | ⟨d, hd, hne⟩
  · simp [deep_get_go, deep_get_step, habs, smLookup]
  · have hie : d.isEmpty = false := by
      cases d with
      | nil => exact absurd rfl hne
      | cons a l => rfl
    cases hlk : lookupKey d key with
    | some v => simp [deep_get_go, deep_get_step, hd, hie, hlk, smLookup]
    | none => simp [deep_get_go, deep_get_step, hd, hie, hlk, smLookup]

theorem rotation_rules_eq_spec (ma ns : Value) (params existing : Entries) :
    rotation_rules ma ns params existing = rotation_spec_rules ma ns params existing := by
  unfold rotation_rules rotation_spec_rules
  by_cases h4 : ns = Value.null
  · subst h4
    by_cases h2 : ma = Value.str "change_immediately" <;> simp [explicitSecret, h2]
  · by_cases h5 : ns = Value.str "NOT_FOUND"
    · subst h5
      by_cases h2 : ma = Value.str "change_immediately" <;> simp [explicitSecret, h2]
    · simp [explicitSecret, h4, h5]

theorem reset_decision_eq_spec (params existing : Entries) (h : smGuard params) :
    reset_rotation_decision params existing = rotation_spec params existing := by
  unfold reset_rotation_decision rotation_spec
  rw [deep_get_sm_key params _ "management_action" h (by decide),
    deep_get_sm_key params _ "new_secret" h (by decide)]
  simpa [Except.bind] using
    rotation_rules_eq_spec (smLookup params "management_action")
      (smLookup params "new_secret") params existing

/-- C1: the source declares the non-removable denylist but never
consults it; with desired name equal to the removal sentinel and an
existing record carrying a name, update_account emits a remove
operation whose rendered path /name targets the denylist member name,
contradicting the claim that denylisted fields are never removed. -/
theorem c1_denylist_remove_emitted :
    update_account_ops [("name", .str "NO_VALUE")]
        [("id", .str "77"), ("name", .str "Old")]
      = .ok [⟨.remove, ["name"], none⟩]
    ∧ "name" ∈ cyberark_nonremovable_properties
    ∧ renderPath ["name"] = "/name" := by
  exact ⟨by decide, by decide, by decide⟩

/-- C2 counterexample: a desired nested sub-object whose parent is
absent from the existing record makes update_account fail with an
AttributeError (line 162 calls .keys() on None) instead of completing
and emitting an add. -/
theorem c2_counterexample :
    update_account_ops
        [("remote_machines_access", .dict [("remote_machines", .str "m1")])]
        [("id", .str "7")]
      = .error "AttributeError" := by decide

/-- C2 (amended): when the resolved existing value is absent (None),
a top-level non-dict field yields an add operation unless the desired
value is the removal sentinel, in which case nothing is emitted; a
child key whose parent sub-object is present behaves the same way
except that a null desired child value also emits nothing; but a
desired sub-object whose parent is absent from the existing record
fails with AttributeError as soon as any child survives the control
filter, instead of completing. -/
theorem c2_absent_value_behaviour :
    (∀ (pn : String) (pv : Value), pn ∉ ansible_specific_parameters → pv ≠ .null →
      (∀ ch, pv ≠ .dict ch) →
      paramOps1 pn pv .null =
        .ok (if pv = removal_value then [] else [⟨.add, [translate pn], some pv⟩]))
    ∧ (∀ (pn pcy cn : String) (cv : Value),
        (pn ++ "." ++ cn) ∉ ansible_specific_parameters →
        childOps1 pn pcy cn cv .null =
          (if cv = .null ∨ cv = removal_value then []
           else [⟨.add, [pcy, translate cn], some cv⟩]))
    ∧ (∀ (pn : String) (children : Entries), pn ∉ ansible_specific_parameters →
        (∃ c ∈ children, (pn ++ "." ++ c.1) ∉ ansible_specific_parameters) →
        paramOps1 pn (.dict children) .null = .error "AttributeError") := by
  refine ⟨?_, ?_, ?_⟩
  · intro pn pv h1 h2 h3
    cases pv with
    | null => exact absurd rfl h2
    | dict ch => exact absurd rfl (h3 ch)
    | str s0 =>
        by_cases hrem : Value.str s0 = removal_value <;>
          simp [paramOps1, scalarOps, h1, hrem]
    | bool b0 =>
        by_cases hrem : Value.bool b0 = removal_value <;>
          simp [paramOps1, scalarOps, h1, hrem]
    | int n0 =>
        by_cases hrem : Value.int n0 = removal_value <;>
          simp [paramOps1, scalarOps, h1, hrem]
  · intro pn pcy cn cv h1
    by_cases hnull : cv = Value.null
    · simp [childOps1, h1, hnull]
    · by_cases hrem : cv = removal_value <;> simp [childOps1, h1, hnull, hrem]
  · intro pn children h1 h2
    have hall : children.all
        (fun c => decide ((pn ++ "." ++ c.1) ∈ ansible_specific_parameters)) = false := by
      obtain ⟨c, hc, hcn⟩ := h2
      rcases hb : children.all
          (fun c => decide ((pn ++ "." ++ c.1) ∈ ansible_specific_parameters)) with _ | _
      · rfl
      · rw [List.all_eq_true] at hb
        exact absurd (of_decide_eq_true (hb c hc)) hcn
    simp [paramOps1, h1, hall]

/-- C2 witness: concrete instances of the three amended behaviours. -/
theorem c2_witness :
    paramOps1 "address" (.str "10.0.0.9") .null
        = .ok [⟨.add, ["address"], some (.str "10.0.0.9")⟩]
    ∧ childOps1 "platform_account_properties" "platformAccountProperties" "Port"
        (.str "22") .null
        = [⟨.add, ["platformAccountProperties", "Port"], some (.str "22")⟩]
    ∧ paramOps1 "remote_machines_access" (.dict [("remote_machines", .str "m1")]) .null
        = .error "AttributeError" := by
  refine ⟨?_, ?_, ?_⟩
  · have h := c2_absent_value_behaviour.1 "address" (.str "10.0.0.9")
      (by decide) (by decide) (fun ch h => Value.noConfusion h)
    simpa using h
  · have h := c2_absent_value_behaviour.2.1 "platform_account_properties"
      "platformAccountProperties" "Port" (.str "22") (by decide)
    simpa using h
  · exact c2_absent_value_behaviour.2.2 "remote_machines_access"
      [("remote_machines", .str "m1")] (by decide)
      ⟨("remote_machines", .str "m1"), by decide, by decide⟩

/-- C3 counterexample: with a null secret_management parameter (its
declared default) the function raises an AttributeError inside deep_get
before evaluating any rotation rule, so not every input is handled by
the priority list. -/
theorem c3_counterexample :
    reset_rotation_decision
        [("secret_management", .null), ("new_secret", .str "x")]
        [("id", .str "5")]
      = .error "AttributeError" := by decide

/-- C3 (amended): whenever the secret_management parameter is absent or
a non-empty mapping, reset_account_if_needed evaluates the five
rotation rules as a strict first-match priority list, choosing at most
one endpoint and payload exactly as rotation_spec_rules states them,
and reporting a no-op when no rule matches; a null secret_management
value instead raises before any rule is evaluated. -/
theorem c3_rotation_priority (params existing : Entries) (h : smGuard params) :
    reset_rotation_decision params existing = rotation_spec params existing :=
  reset_decision_eq_spec params existing h

/-- C3 witness: rule 3 on a concrete guarded input. -/
theorem c3_witness :
    reset_rotation_decision
        [("secret_management", .dict
            [("management_action", .str "change_immediately"), ("new_secret", .str "np")])]
        [("id", .str "3")]
      = .ok (some ("/PasswordVault/API/Accounts/3/SetNextPassword",
          [("ChangeImmediately", .bool true), ("NewCredentials", .str "np")])) := by
  rw [c3_rotation_priority _ _ (by decide)]
  decide

/-- C4 counterexample: a secret_management sub-object carrying the
management_action directive change (with a null sub-object secret) and
a non-null top-level new_secret makes the fifth rule fire: the source
posts to the whole-group Password/Update endpoint although a
management-action directive was supplied. -/
theorem c4_counterexample :
    reset_rotation_decision
        [("secret_management", .dict
            [("management_action", .str "change"), ("new_secret", .null)]),
         ("new_secret", .str "s3")]
        [("id", .str "5")]
      = .ok (some ("/PasswordVault/API/Accounts/5/Password/Update",
          [("ChangeEntireGroup", .bool true), ("NewCredentials", .str "s3")]))
    ∧ lookupKey
        [("secret_management", Value.dict
            [("management_action", Value.str "change"), ("new_secret", Value.null)]),
         ("new_secret", Value.str "s3")] "secret_management"
      = some (.dict [("management_action", .str "change"), ("new_secret", .null)]) := by
  exact ⟨by decide, by decide⟩

/-- C4 (amended): when the supplied management_action directive is
change_immediately or reconcile, or is change accompanied by an
explicit sub-object new_secret, the fifth rule never fires: any
rotation call chosen has no ChangeEntireGroup true flag in its payload
(only the fifth, whole-group Password/Update rule sets that flag).
With directive change and no explicit sub-object secret, rules one to
four all miss and the fifth rule is reachable, as the counterexample
shows. -/
theorem c4_rule5_not_with_directive (params existing d : Entries) (a : String)
    (hsm : lookupKey params "secret_management" = some (.dict d)) (hne : d ≠ [])
    (hma : lookupKey d "management_action" = some (.str a))
    (hdir : a = "change_immediately" ∨ a = "reconcile" ∨
      (a = "change" ∧ explicitSecret (smLookup params "new_secret") = true)) :
    ∀ ep pl, reset_rotation_decision params existing = .ok (some (ep, pl)) →
      lookupKey pl "ChangeEntireGroup" ≠ some (.bool true) := by
  have hg : smGuard params := Or.inr ⟨d, hsm, hne⟩
  intro ep pl hok
  rw [reset_decision_eq_spec params existing hg] at hok
  have hmal : smLookup params "management_action" = Value.str a := by
    simp [smLookup, hsm, hma]
  unfold rotation_spec at hok
  rw [hmal] at hok
  unfold rotation_spec_rules at hok
  rcases hdir with h1 | h1 | ⟨h1, hex⟩
  · subst h1
    by_cases hex : explicitSecret (smLookup params "new_secret") = true
    · cases hid : lookupKey existing "id" with
      | none => simp [hex, require, hid] at hok
      | some idv =>
          simp [hex, require, hid] at hok
          obtain ⟨-, hp⟩ := hok
          subst hp
          simp [lookupKey]
    · cases hid : lookupKey existing "id" with
      | none => simp [hex, require, hid] at hok
      | some idv =>
          simp [hex, require, hid] at hok
          obtain ⟨-, hp⟩ := hok
          subst hp
          simp [lookupKey]
  · subst h1
    cases hid : lookupKey existing "id" with
    | none => simp [require, hid] at hok
    | some idv =>
        simp [require, hid] at hok
        obtain ⟨-, hp⟩ := hok
        subst hp
        simp [lookupKey]
  · subst h1
    cases hid : lookupKey existing "id" with
    | none => simp [hex, require, hid] at hok
    | some idv =>
        simp [hex, require, hid] at hok
        obtain ⟨-, hp⟩ := hok
        subst hp
        simp [lookupKey]

/-- C4 witness: with directive change_immediately and no explicit
secret the chosen payload is the Change one, whose ChangeEntireGroup
flag is false, not true. -/
theorem c4_witness :
    lookupKey [("ChangeEntireGroup", Value.bool false)] "ChangeEntireGroup"
      ≠ some (Value.bool true) := by
  refine c4_rule5_not_with_directive
    [("secret_management", .dict
        [("management_action", .str "change_immediately"), ("new_secret", .null)])]
    [("id", .str "8")]
    [("management_action", .str "change_immediately"), ("new_secret", .null)]
    "change_immediately" (by decide) (by decide) (by decide) (Or.inl rfl)
    "/PasswordVault/API/Accounts/8/Change" [("ChangeEntireGroup", Value.bool false)]
    (by decide)

/-- C8 counterexample: deep_get with a default still raises when an
intermediate path segment resolves to a non-mapping value (here the
null value of a, on which the source calls .keys()). -/
theorem c8_counterexample :
    deep_get [("a", .null)] "a.b" (some (.str "dflt")) false
      = .error "AttributeError" := by decide

/-- C8 (amended): with a default supplied, deep_get never raises a
KeyError; in general the run with a default equals the run without one
with a KeyError outcome replaced by the default, so a missing key
yields the default exactly where the no-default run raises; and at any
point of the walk, over any remaining path, a segment missing from its
container (the KeyError of the lookup step) makes the no-default run
raise KeyError and the with-default run return the default.  An
AttributeError from a non-mapping intermediate value escapes either
way. -/
theorem c8_deep_get_default_behaviour :
    (∀ (dct : Entries) (path : String) (dv : Value) (ut : Bool),
      deep_get dct path (some dv) ut ≠ .error "KeyError")
    ∧ (∀ (dct : Entries) (path : String) (dv : Value) (ut : Bool),
        deep_get dct path (some dv) ut =
          (match deep_get dct path none ut with
           | .ok v => .ok v
           | .error e => if e = "KeyError" then .ok dv else .error e))
    ∧ (∀ (dct : Entries) (ut : Bool) (cur : Value) (k : String) (rest : List String),
        deep_get_step dct cur k ut = .error "KeyError" →
        deep_get_go dct none ut cur (k :: rest) = .error "KeyError")
    ∧ (∀ (dct : Entries) (dv : Value) (ut : Bool) (cur : Value) (k : String)
          (rest : List String),
        deep_get_step dct cur k ut = .error "KeyError" →
        deep_get_go dct (some dv) ut cur (k :: rest) = .ok dv) := by
  refine ⟨?_, ?_, ?_, ?_⟩
  · intro dct path dv ut
    exact deep_get_go_default_no_keyerror dct dv ut (pySplit path '.') (.dict [])
  · intro dct path dv ut
    exact deep_get_go_default_rel dct dv ut (pySplit path '.') (.dict [])
  · intro dct ut cur k rest hstep
    simp [deep_get_go, hstep]
  · intro dct dv ut cur k rest hstep
    simp [deep_get_go, hstep]

/-- C8 witness: a missing key with a default yields the default and is
no KeyError; the same missing key with no default raises KeyError. -/
theorem c8_witness :
    deep_get [] "x" (some (.str "d")) false ≠ .error "KeyError"
    ∧ deep_get [("a", .null)] "b" (some (.str "d")) false = .ok (.str "d")
    ∧ deep_get_go [("a", .int 0)] none false (.dict []) ["b", "c"] = .error "KeyError"
    ∧ deep_get_go [("a", .int 0)] (some (.str "d")) false (.dict []) ["b", "c"]
        = .ok (.str "d") := by
  refine ⟨?_, ?_, ?_, ?_⟩
  · exact c8_deep_get_default_behaviour.1 [] "x" (.str "d") false
  · rw [c8_deep_get_default_behaviour.2.1 [("a", .null)] "b" (.str "d") false]
    decide
  · exact c8_deep_get_default_behaviour.2.2.1 [("a", .int 0)] false (.dict [])
      "b" ["c"] (by decide)
  · exact c8_deep_get_default_behaviour.2.2.2 [("a", .int 0)] (.str "d") false
      (.dict []) "b" ["c"] (by decide)

theorem exceptOkBind {α β : Type} (a : α) (f : α → Except String β) :
    (Except.ok a >>= f) = f a := rfl

theorem exceptErrBind {α β : Type} (e : String) (f : α → Except String β) :
    ((Except.error e : Except String α) >>= f) = Except.error e := rfl

theorem exceptMapOk {α β : Type} (a : α) (f : α → β) :
    (f <$> (Except.ok a : Except String α)) = Except.ok (f a) := rfl

theorem exceptMapError {α β : Type} (e : String) (f : α → β) :
    (f <$> (Except.error e : Except String α)) = Except.error e := rfl

theorem dg1_false (d : Entries) (f : String) (dv : Value) :
    dg1 d f false dv = (lookupKey d f).getD dv := by
  cases h : lookupKey d f with
  | some v => simp [dg1, h]
  | none => simp [dg1, h]

theorem accJoin_some (ts : List String) : ∀ (s : String),
    accJoin (some s) ts = some (ts.foldl (fun a b => a ++ " " ++ b) s) := by
  induction ts with
  | nil => intro s; rfl
  | cons t ts ih => intro s; simpa [accJoin, List.foldl] using ih (s ++ " " ++ t)

theorem accJoin_none (ts : List String) : accJoin none ts = joinTokens ts := by
  cases ts with
  | nil => rfl
  | cons t ts =>
      have h : ("" : String) ++ t = t := rfl
      simpa [accJoin, joinTokens, List.foldl, h] using accJoin_some ts t

theorem build_search_eq_accJoin (params : Entries) :
    ∀ (fields : List String) (acc : Option String),
      (∀ f ∈ fields, f ∉ ansible_specific_parameters → pySplit f '.' = [f]) →
      build_search_string params fields acc =
        .ok (accJoin acc (search_tokens params fields)) := by
  intro fields
  induction fields with
  | nil => intro acc hseg; rfl
  | cons f rest ih =>
      intro acc hseg
      by_cases hf : f ∈ ansible_specific_parameters
      · have := ih acc (fun g hg => hseg g (List.mem_cons_of_mem f hg))
        simpa [build_search_string, search_tokens, hf] using this
      · have hsplit := hseg f (List.mem_cons_self f rest) hf
        have hrest := ih
          (some ((match acc with | some s2 => s2 ++ " " | none => "") ++
            pyStr ((lookupKey params f).getD (.str "NOT FOUND"))))
          (fun g hg => hseg g (List.mem_cons_of_mem f hg))
        simp [build_search_string, hf, deep_get_single params f _ false hsplit,
          dg1_false, exceptOkBind, hrest, search_tokens, accJoin]

theorem found_in_record_go_eq (params rec : Entries) :
    ∀ (fields : List String) (b : Bool),
      (∀ f ∈ fields, pySplit f '.' = [f]) →
      found_in_record_go params rec b fields =
        .ok (if fields.isEmpty then b else fields.all (field_match params rec)) := by
  intro fields
  induction fields with
  | nil => intro b hseg; rfl
  | cons f rest ih =>
      intro b hseg
      have hsplit := hseg f (List.mem_cons_self f rest)
      have hrest := fun b2 => ih b2 (fun g hg => hseg g (List.mem_cons_of_mem f hg))
      by_cases hnf : dg1 rec f true (.str "NOT FOUND") = .str "NOT FOUND"
      · simp [found_in_record_go, deep_get_single rec f _ true hsplit, exceptOkBind,
          hnf, field_match, List.all_cons]
      · by_cases heq : dg1 rec f true (.str "NOT FOUND")
            = dg1 params f false (.str "NOT FOUND")
        · have hr := hrest true
          simp [found_in_record_go, deep_get_single rec f _ true hsplit,
            deep_get_single params f _ false hsplit, exceptOkBind, hnf, heq, hr,
            field_match, List.all_cons]
          cases rest <;> simp_all
        · simp [found_in_record_go, deep_get_single rec f _ true hsplit,
            deep_get_single params f _ false hsplit, exceptOkBind, hnf, heq,
            field_match, List.all_cons]

theorem found_in_record_eq (params rec : Entries) (fields : List String)
    (hseg : ∀ f ∈ fields, pySplit f '.' = [f]) :
    found_in_record params rec fields = .ok (matchesB params fields rec) := by
  unfold found_in_record matchesB
  rw [found_in_record_go_eq params rec fields false hseg]
  cases fields <;> simp

theorem get_account_scan_eq (params : Entries) (fields : List String)
    (hseg : ∀ f ∈ fields, pySplit f '.' = [f]) :
    ∀ (records : List Entries) (n : Nat) (first : Option Entries),
      get_account_scan params fields records n first =
        .ok (n + (records.filter (matchesB params fields)).length,
          match first with
          | some x => some x
          | none => (records.filter (matchesB params fields)).head?) := by
  intro records
  induction records with
  | nil =>
      intro n first
      cases first <;> simp [get_account_scan]
  | cons r rest ih =>
      intro n first
      simp only [get_account_scan, found_in_record_eq params r fields hseg, exceptOkBind]
      by_cases hm : matchesB params fields r = true
      · cases first with
        | some x =>
            simp [hm, ih, List.filter_cons, Nat.add_assoc, Nat.add_comm, Nat.add_left_comm]
        | none =>
            simp [hm, ih, List.filter_cons, Nat.add_assoc, Nat.add_comm, Nat.add_left_comm]
      · cases first with
        | some x => simp [hm, ih, List.filter_cons]
        | none => simp [hm, ih, List.filter_cons]

/-- C5: over any returned result set (with a well-formed count), the
matcher counts the records that equal the caller values on every
identified_by field; more than one such record aborts the run, exactly
one returns that record as the existing record, zero reports
not-found. -/
theorem c5_match_uniqueness (params : Entries) (s : String) (data : QueryData) (code : Int)
    (hib : lookupKey params "identified_by" = some (.str s))
    (hseg : ∀ f ∈ pySplit s ',', pySplit f '.' = [f])
    (hsafe : (lookupKey params "safe").isSome = true)
    (hsession : (lookupKey params "cyberark_session").isSome = true)
    (hstate : (lookupKey params "state").isSome = true)
    (hcount : data.count = data.value.length) :
    get_account params (.success data code) =
      if (data.value.filter (matchesB params (pySplit s ','))).length > 1
      then .error "TooManyRows"
      else .ok ((data.value.filter (matchesB params (pySplit s ','))).length == 1,
        (data.value.filter (matchesB params (pySplit s ','))).head?, code) := by
  obtain ⟨sv, hsv⟩ := Option.isSome_iff_exists.mp hsafe
  obtain ⟨cv, hcv⟩ := Option.isSome_iff_exists.mp hsession
  obtain ⟨tv, htv⟩ := Option.isSome_iff_exists.mp hstate
  have hbuild := build_search_eq_accJoin params (pySplit s ',') none
    (fun f hf _ => hseg f hf)
  by_cases hc : data.count = 0
  · have hlen : data.value.length = 0 := by omega
    have hval : data.value = [] := List.length_eq_zero.mp hlen
    simp [get_account, hib, exceptOkBind, hbuild, require, hsv, hcv, htv, hc, hval]
  · simp [get_account, hib, exceptOkBind, hbuild, require, hsv, hcv, htv, hc,
      get_account_scan_eq params (pySplit s ',') hseg data.value 0 none]

/-- C5 witness: two records both equal to the caller values on the one
identity field abort the run. -/
theorem c5_witness :
    get_account
        [("identified_by", .str "username"), ("safe", .str "S1"),
         ("state", .str "present"), ("cyberark_session", .dict []),
         ("username", .str "admin")]
        (.success ⟨2, [[("userName", .str "admin")], [("userName", .str "admin")]]⟩ 200)
      = .error "TooManyRows" := by
  rw [c5_match_uniqueness _ "username" _ 200 (by decide) (by decide) (by decide)
    (by decide) (by decide) (by decide)]
  decide

/-- C6: an HTTP 404 from the search endpoint is returned as a
successful not-found (found false, no record, code 404), and a present
desired state with a not-found lookup dispatches to create. -/
theorem c6_http404_not_found (params : Entries) (s : String)
    (hib : lookupKey params "identified_by" = some (.str s))
    (hseg : ∀ f ∈ pySplit s ',', pySplit f '.' = [f])
    (hsafe : (lookupKey params "safe").isSome = true)
    (hsession : (lookupKey params "cyberark_session").isSome = true)
    (hstate : (lookupKey params "state").isSome = true) :
    get_account params (.httpError 404) = .ok (false, none, 404)
    ∧ main_action "present" false = .create := by
  obtain ⟨sv, hsv⟩ := Option.isSome_iff_exists.mp hsafe
  obtain ⟨cv, hcv⟩ := Option.isSome_iff_exists.mp hsession
  obtain ⟨tv, htv⟩ := Option.isSome_iff_exists.mp hstate
  have hbuild := build_search_eq_accJoin params (pySplit s ',') none
    (fun f hf _ => hseg f hf)
  constructor
  · simp [get_account, hib, exceptOkBind, hbuild, require, hsv, hcv, htv]
  · rfl

/-- C6 witness: a concrete 404 lookup. -/
theorem c6_witness :
    get_account
        [("identified_by", .str "username,address,platform_id"), ("safe", .str "S2"),
         ("state", .str "present"), ("cyberark_session", .dict []),
         ("username", .str "alice")]
        (.httpError 404)
      = .ok (false, none, 404)
    ∧ main_action "present" false = .create :=
  c6_http404_not_found
    [("identified_by", .str "username,address,platform_id"), ("safe", .str "S2"),
     ("state", .str "present"), ("cyberark_session", .dict []),
     ("username", .str "alice")]
    "username,address,platform_id" (by decide) (by decide) (by decide) (by decide)
    (by decide)

/-- C9: with the scenario parameters and a zero-match lookup, the
dispatcher proceeds to create and the create payload is exactly the
four translated fields. -/
theorem c9_create_scenario :
    get_account
        [("identified_by", .str "username,address,platform_id"),
         ("safe", .str "S1"), ("state", .str "present"), ("cyberark_session", .dict []),
         ("platform_id", .str "P1"), ("address", .str "10.0.0.1"),
         ("username", .str "admin")]
        (.success ⟨0, []⟩ 200)
      = .ok (false, none, 200)
    ∧ main_action "present" false = .create
    ∧ add_account_payload
        [("identified_by", .str "username,address,platform_id"),
         ("safe", .str "S1"), ("state", .str "present"), ("cyberark_session", .dict []),
         ("platform_id", .str "P1"), ("address", .str "10.0.0.1"),
         ("username", .str "admin")]
      = .ok [("safeName", .str "S1"), ("platformId", .str "P1"),
             ("address", .str "10.0.0.1"), ("userName", .str "admin")] := by
  exact ⟨by decide, rfl, by decide⟩

/-- C10: every non-control identified_by field contributes a token to
the search string even without a usable value: a null parameter
contributes the text None, a missing parameter the literal NOT FOUND,
joined by single spaces in list order. -/
theorem c10_search_string_tokens (params : Entries) (fields : List String)
    (hseg : ∀ f ∈ fields, f ∉ ansible_specific_parameters → pySplit f '.' = [f]) :
    build_search_string params fields none =
      .ok (joinTokens (search_tokens params fields)) := by
  rw [build_search_eq_accJoin params fields none hseg, accJoin_none]

/-- C10 witness: a null username contributes None, a missing
platform_id contributes NOT FOUND. -/
theorem c10_witness :
    build_search_string [("username", .null), ("address", .str "1.2.3.4")]
        ["username", "address", "platform_id"] none
      = .ok (some "None 1.2.3.4 NOT FOUND") := by
  rw [c10_search_string_tokens _ _ (by decide)]
  decide

theorem childOps1_path (pn pcy cn : String) (cv cev : Value) :
    ∀ op ∈ childOps1 pn pcy cn cv cev, op.path = [pcy, translate cn] := by
  intro op hop
  simp only [childOps1] at hop
  split_ifs at hop <;> simp_all

theorem childOps_path (pn pcy : String) (ed : Entries) :
    ∀ (children : Entries), ∀ op ∈ childOps pn pcy ed children,
      ∃ c ∈ children, op.path = [pcy, translate c.1] := by
  intro children
  induction children with
  | nil => intro op hop; simp [childOps] at hop
  | cons c rest ih =>
      intro op hop
      simp only [childOps, List.mem_append] at hop
      rcases hop with h | h
      · exact ⟨c, List.mem_cons_self c rest, childOps1_path pn pcy c.1 c.2 _ op h⟩
      · obtain ⟨c2, hc2, hp⟩ := ih op h
        exact ⟨c2, List.mem_cons_of_mem c hc2, hp⟩

theorem scalarOps_path (pcy : String) (pv ev : Value) :
    ∀ op ∈ scalarOps pcy pv ev, op.path = [pcy] := by
  intro op hop
  simp only [scalarOps] at hop
  split_ifs at hop <;> simp_all

theorem paramOps1_head (pn : String) (pv ev : Value) (l : List PatchOp)
    (hok : paramOps1 pn pv ev = .ok l) :
    ∀ op ∈ l, op.path.head? = some (translate pn) := by
  intro op hop
  by_cases hf : pn ∈ ansible_specific_parameters ∨ pv = Value.null
  · simp [paramOps1, hf] at hok
    subst hok
    simp at hop
  · obtain ⟨hf1, hf2⟩ := not_or.mp hf
    cases pv with
    | null => exact absurd rfl hf2
    | dict ch =>
        cases ev with
        | dict ed =>
            simp [paramOps1, hf1, hf2] at hok
            rw [← hok] at hop
            obtain ⟨c, _, hp⟩ := childOps_path pn (translate pn) ed ch op hop
            simp [hp]
        | null =>
            simp [paramOps1, hf1, hf2] at hok
            split_ifs at hok
            simp at hok
            subst hok
            simp at hop
        | str s0 =>
            simp [paramOps1, hf1, hf2] at hok
            split_ifs at hok
            simp at hok
            subst hok
            simp at hop
        | bool b0 =>
            simp [paramOps1, hf1, hf2] at hok
            split_ifs at hok
            simp at hok
            subst hok
            simp at hop
        | int n0 =>
            simp [paramOps1, hf1, hf2] at hok
            split_ifs at hok
            simp at hok
            subst hok
            simp at hop
    | str s0 =>
        simp [paramOps1, hf1, hf2] at hok
        rw [← hok] at hop
        simp [scalarOps_path (translate pn) _ ev op hop]
    | bool b0 =>
        simp [paramOps1, hf1, hf2] at hok
        rw [← hok] at hop
        simp [scalarOps_path (translate pn) _ ev op hop]
    | int n0 =>
        simp [paramOps1, hf1, hf2] at hok
        rw [← hok] at hop
        simp [scalarOps_path (translate pn) _ ev op hop]

theorem applyOps_append (e : Entries) (l1 l2 : List PatchOp) :
    applyOps e (l1 ++ l2) = applyOps (applyOps e l1) l2 :=
  List.foldl_append applyOp e l1 l2

theorem lookup_applyOp_ne (e : Entries) (op : PatchOp) (k : String)
    (h : op.path.head? ≠ some k) :
    lookupKey (applyOp e op) k = lookupKey e k := by
  obtain ⟨oo, opath, oval⟩ := op
  cases opath with
  | nil => rfl
  | cons k1 tail =>
      have hk1 : k1 ≠ k := by
        intro he
        exact h (by simp [he])
      cases tail with
      | nil =>
          cases oo <;> cases oval <;>
            first
              | exact lookupKey_removeKey_ne e k1 k (Ne.symm hk1)
              | exact lookupKey_setKey_ne e k1 k _ (Ne.symm hk1)
              | rfl
      | cons k2 tail2 =>
          cases tail2 with
          | nil =>
              cases hlk : lookupKey e k1 with
              | some v =>
                  cases v with
                  | dict d =>
                      have hstep : applyOp e ⟨oo, [k1, k2], oval⟩
                          = setKey e k1
                              (Value.dict (innerPatch d ⟨oo, [k1, k2], oval⟩)) := by
                        simp [applyOp, hlk]
                      rw [hstep]
                      exact lookupKey_setKey_ne e k1 k _ (Ne.symm hk1)
                  | null => simp [applyOp, hlk]
                  | str s0 => simp [applyOp, hlk]
                  | bool b0 => simp [applyOp, hlk]
                  | int n0 => simp [applyOp, hlk]
              | none => simp [applyOp, hlk]
          | cons k3 tail3 => rfl

theorem lookup_applyOps_ne (k : String) :
    ∀ (l : List PatchOp) (e : Entries), (∀ op ∈ l, op.path.head? ≠ some k) →
      lookupKey (applyOps e l) k = lookupKey e k := by
  intro l
  induction l with
  | nil => intro e _; rfl
  | cons op rest ih =>
      intro e h
      have h1 := h op (List.mem_cons_self op rest)
      have h2 : lookupKey (applyOps (applyOp e op) rest) k = lookupKey (applyOp e op) k :=
        ih (applyOp e op) (fun o ho => h o (List.mem_cons_of_mem op ho))
      calc lookupKey (applyOps e (op :: rest)) k
          = lookupKey (applyOps (applyOp e op) rest) k := rfl
        _ = lookupKey (applyOp e op) k := h2
        _ = lookupKey e k := lookup_applyOp_ne e op k h1

theorem lookup_applyOps_two_seg (p : String) :
    ∀ (l : List PatchOp) (e : Entries) (d0 : Entries),
      (∀ op ∈ l, ∃ c, op.path = [p, c]) →
      lookupKey e p = some (.dict d0) →
      lookupKey (applyOps e l) p = some (.dict (l.foldl innerPatch d0)) := by
  intro l
  induction l with
  | nil => intro e d0 _ he; simpa [applyOps] using he
  | cons op rest ih =>
      intro e d0 hp he
      obtain ⟨c, hc⟩ := hp op (List.mem_cons_self op rest)
      have step : applyOp e op = setKey e p (.dict (innerPatch d0 op)) := by
        unfold applyOp
        rw [hc]
        simp [he]
      have : lookupKey (applyOps (applyOp e op) rest) p
          = some (.dict (rest.foldl innerPatch (innerPatch d0 op))) := by
        rw [step]
        exact ih (setKey e p (.dict (innerPatch d0 op))) (innerPatch d0 op)
          (fun o ho => hp o (List.mem_cons_of_mem op ho))
          (lookupKey_setKey_self e p (.dict (innerPatch d0 op)))
      exact this

theorem lookup_innerPatch_ne (d : Entries) (op : PatchOp) (p c k : String)
    (hpath : op.path = [p, c]) (h : c ≠ k) :
    lookupKey (innerPatch d op) k = lookupKey d k := by
  obtain ⟨oo, opath, oval⟩ := op
  change opath = [p, c] at hpath
  subst hpath
  cases oo <;> cases oval <;>
    first
      | exact lookupKey_removeKey_ne d c k (Ne.symm h)
      | exact lookupKey_setKey_ne d c k _ (Ne.symm h)
      | rfl

theorem lookup_innerFold_ne (p k : String) :
    ∀ (l : List PatchOp) (d : Entries),
      (∀ op ∈ l, ∃ c, op.path = [p, c] ∧ c ≠ k) →
      lookupKey (l.foldl innerPatch d) k = lookupKey d k := by
  intro l
  induction l with
  | nil => intro d _; rfl
  | cons op rest ih =>
      intro d h
      obtain ⟨c, hc, hck⟩ := h op (List.mem_cons_self op rest)
      calc lookupKey ((op :: rest).foldl innerPatch d) k
          = lookupKey (rest.foldl innerPatch (innerPatch d op)) k := rfl
        _ = lookupKey (innerPatch d op) k :=
            ih (innerPatch d op) (fun o ho => h o (List.mem_cons_of_mem op ho))
        _ = lookupKey d k := lookup_innerPatch_ne d op p c k hc hck

theorem child_idem (pn pcy cn : String) (cv : Value) (d ed : Entries)
    (hd : lookupKey d (translate cn) = lookupKey ed (translate cn)) :
    childOps1 pn pcy cn cv
      (refValue (translate cn)
        ((childOps1 pn pcy cn cv (refValue (translate cn) ed)).foldl innerPatch d)) = [] := by
  by_cases hfil : (pn ++ "." ++ cn) ∈ ansible_specific_parameters
  · simp [childOps1, hfil]
  · have hvd : refValue (translate cn) d = refValue (translate cn) ed := by
      unfold refValue
      rw [hd]
    by_cases hA : refValue (translate cn) ed = Value.null
    · by_cases hcv : cv ≠ Value.null ∧ cv ≠ removal_value
      · have hl : childOps1 pn pcy cn cv (refValue (translate cn) ed)
            = [⟨.add, [pcy, translate cn], some cv⟩] := by
          simp [childOps1, hfil, hA, hcv]
        rw [hl]
        have hfold : ([(⟨.add, [pcy, translate cn], some cv⟩ : PatchOp)]).foldl innerPatch d
            = setKey d (translate cn) cv := rfl
        rw [hfold]
        have hv : refValue (translate cn) (setKey d (translate cn) cv) = cv := by
          simp [refValue, lookupKey_setKey_self]
        rw [hv]
        simp [childOps1, hfil, hcv.1, hcv.2]
      · have hl : childOps1 pn pcy cn cv (refValue (translate cn) ed) = [] := by
          simp [childOps1, hfil, hA, hcv]
        rw [hl]
        have hfold : ([] : List PatchOp).foldl innerPatch d = d := rfl
        rw [hfold, hvd, hA]
        simp [childOps1, hfil, hcv]
    · by_cases hrem : cv = removal_value
      · have hl : childOps1 pn pcy cn cv (refValue (translate cn) ed)
            = [⟨.remove, [pcy, translate cn], none⟩] := by
          simp [childOps1, hfil, hA, hrem]
        rw [hl]
        have hfold : ([(⟨.remove, [pcy, translate cn], none⟩ : PatchOp)]).foldl innerPatch d
            = removeKey d (translate cn) := rfl
        rw [hfold]
        have hv : refValue (translate cn) (removeKey d (translate cn)) = Value.null := by
          simp [refValue, lookupKey_removeKey_self]
        rw [hv]
        simp [childOps1, hfil, hrem]
      · by_cases heq : refValue (translate cn) ed = cv
        · have hl : childOps1 pn pcy cn cv (refValue (translate cn) ed) = [] := by
            simp [childOps1, hfil, hA, hrem, heq]
          rw [hl]
          have hfold : ([] : List PatchOp).foldl innerPatch d = d := rfl
          rw [hfold, hvd, heq]
          have hcvnull : cv ≠ Value.null := by
            intro hh
            exact hA (by rw [heq, hh])
          simp [childOps1, hfil, hrem, hcvnull]
        · have hl : childOps1 pn pcy cn cv (refValue (translate cn) ed)
              = [⟨.replace, [pcy, translate cn], some cv⟩] := by
            simp [childOps1, hfil, hA, hrem, heq]
          rw [hl]
          have hfold : ([(⟨.replace, [pcy, translate cn], some cv⟩ : PatchOp)]).foldl
              innerPatch d = setKey d (translate cn) cv := rfl
          rw [hfold]
          by_cases hcnull : cv = Value.null
          · have hv : refValue (translate cn) (setKey d (translate cn) cv) = Value.null := by
              simp [refValue, lookupKey_setKey_self, hcnull]
            rw [hv]
            simp [childOps1, hfil, hcnull]
          · have hv : refValue (translate cn) (setKey d (translate cn) cv) = cv := by
              simp [refValue, lookupKey_setKey_self]
            rw [hv]
            simp [childOps1, hfil, hrem, hcnull]

theorem refValue_congr (k : String) (d1 d2 : Entries)
    (h : lookupKey d1 k = lookupKey d2 k) : refValue k d1 = refValue k d2 := by
  unfold refValue
  rw [h]

theorem childOps_idem (pn pcy : String) (ed : Entries) :
    ∀ (children : Entries) (d : Entries),
      (children.map (fun c => translate c.1)).Nodup →
      (∀ c ∈ children, lookupKey d (translate c.1) = lookupKey ed (translate c.1)) →
      childOps pn pcy ((childOps pn pcy ed children).foldl innerPatch d) children = [] := by
  intro children
  induction children with
  | nil => intro d _ _; rfl
  | cons c rest ih =>
      intro d hnodup hlk
      rw [List.map_cons] at hnodup
      have hnd := List.nodup_cons.mp hnodup
      have hnd1 : translate c.1 ∉ rest.map (fun c2 => translate c2.1) := hnd.1
      have hnd2 : (rest.map (fun c2 => translate c2.1)).Nodup := hnd.2
      have hsplit : childOps pn pcy ed (c :: rest)
          = childOps1 pn pcy c.1 c.2 (refValue (translate c.1) ed)
            ++ childOps pn pcy ed rest := rfl
      rw [hsplit, List.foldl_append]
      show childOps1 pn pcy c.1 c.2
          (refValue (translate c.1)
            ((childOps pn pcy ed rest).foldl innerPatch
              ((childOps1 pn pcy c.1 c.2 (refValue (translate c.1) ed)).foldl innerPatch d)))
          ++ childOps pn pcy
            ((childOps pn pcy ed rest).foldl innerPatch
              ((childOps1 pn pcy c.1 c.2 (refValue (translate c.1) ed)).foldl innerPatch d))
            rest
        = []
      have hpart1lk : lookupKey
          ((childOps pn pcy ed rest).foldl innerPatch
            ((childOps1 pn pcy c.1 c.2 (refValue (translate c.1) ed)).foldl innerPatch d))
          (translate c.1)
          = lookupKey
            ((childOps1 pn pcy c.1 c.2 (refValue (translate c.1) ed)).foldl innerPatch d)
            (translate c.1) := by
        refine lookup_innerFold_ne pcy (translate c.1) (childOps pn pcy ed rest) _ ?_
        intro op hop
        obtain ⟨c2, hc2, hp⟩ := childOps_path pn pcy ed rest op hop
        refine ⟨translate c2.1, hp, ?_⟩
        intro hh
        exact hnd1 (hh ▸ List.mem_map_of_mem (fun c3 => translate c3.1) hc2)
      have hpart1 : childOps1 pn pcy c.1 c.2
          (refValue (translate c.1)
            ((childOps pn pcy ed rest).foldl innerPatch
              ((childOps1 pn pcy c.1 c.2 (refValue (translate c.1) ed)).foldl innerPatch d)))
          = [] := by
        have hrv : refValue (translate c.1)
            ((childOps pn pcy ed rest).foldl innerPatch
              ((childOps1 pn pcy c.1 c.2 (refValue (translate c.1) ed)).foldl innerPatch d))
            = refValue (translate c.1)
              ((childOps1 pn pcy c.1 c.2 (refValue (translate c.1) ed)).foldl innerPatch d) :=
          refValue_congr (translate c.1) _ _ hpart1lk
        rw [hrv]
        exact child_idem pn pcy c.1 c.2 d ed (hlk c (List.mem_cons_self c rest))
      have hpart2 : childOps pn pcy
          ((childOps pn pcy ed rest).foldl innerPatch
            ((childOps1 pn pcy c.1 c.2 (refValue (translate c.1) ed)).foldl innerPatch d))
          rest = [] := by
        refine ih ((childOps1 pn pcy c.1 c.2 (refValue (translate c.1) ed)).foldl innerPatch d)
          hnd2 ?_
        intro c2 hc2
        have hne : translate c.1 ≠ translate c2.1 := by
          intro hh
          exact hnd1 (hh ▸ List.mem_map_of_mem (fun c3 => translate c3.1) hc2)
        have hstep : lookupKey
            ((childOps1 pn pcy c.1 c.2 (refValue (translate c.1) ed)).foldl innerPatch d)
            (translate c2.1) = lookupKey d (translate c2.1) := by
          refine lookup_innerFold_ne pcy (translate c2.1) _ d ?_
          intro op hop
          exact ⟨translate c.1, childOps1_path pn pcy c.1 c.2 _ op hop, hne⟩
        rw [hstep]
        exact hlk c2 (List.mem_cons_of_mem c hc2)
      rw [hpart1, hpart2]
      rfl

theorem lookup_of_refValue_dict (k : String) (E : Entries) (ed : Entries)
    (h : refValue k E = .dict ed) : lookupKey E k = some (.dict ed) := by
  unfold refValue at h
  cases hlk : lookupKey E k with
  | none =>
      rw [hlk] at h
      exact absurd h (by simp)
  | some v =>
      rw [hlk] at h
      simpa using h

theorem scalar_idem (pcy : String) (pv : Value) (E e0 : Entries)
    (hpvnull : pv ≠ Value.null)
    (hl : lookupKey e0 pcy = lookupKey E pcy) :
    scalarOps pcy pv (refValue pcy (applyOps e0 (scalarOps pcy pv (refValue pcy E)))) = [] := by
  have he0 : refValue pcy e0 = refValue pcy E := refValue_congr pcy e0 E hl
  by_cases hA : refValue pcy E = Value.null
  · by_cases hrem : pv = removal_value
    · have hlop : scalarOps pcy pv (refValue pcy E) = [] := by
        simp [scalarOps, hA, hrem]
      rw [hlop]
      show scalarOps pcy pv (refValue pcy e0) = []
      rw [he0, hA]
      simp [scalarOps, hrem]
    · have hlop : scalarOps pcy pv (refValue pcy E) = [⟨.add, [pcy], some pv⟩] := by
        simp [scalarOps, hA, hrem, hpvnull]
      rw [hlop]
      have happ : applyOps e0 [(⟨.add, [pcy], some pv⟩ : PatchOp)] = setKey e0 pcy pv := rfl
      rw [happ]
      have hv : refValue pcy (setKey e0 pcy pv) = pv := by
        simp [refValue, lookupKey_setKey_self, hpvnull]
      rw [hv]
      simp [scalarOps, hpvnull, hrem]
  · by_cases hrem : pv = removal_value
    · have hlop : scalarOps pcy pv (refValue pcy E) = [⟨.remove, [pcy], none⟩] := by
        simp [scalarOps, hA, hrem]
      rw [hlop]
      have happ : applyOps e0 [(⟨.remove, [pcy], none⟩ : PatchOp)] = removeKey e0 pcy := rfl
      rw [happ]
      have hv : refValue pcy (removeKey e0 pcy) = Value.null := by
        simp [refValue, lookupKey_removeKey_self]
      rw [hv]
      simp [scalarOps, hrem]
    · by_cases heq : refValue pcy E = pv
      · have hlop : scalarOps pcy pv (refValue pcy E) = [] := by
          simp [scalarOps, hA, hrem, heq, hpvnull]
        rw [hlop]
        show scalarOps pcy pv (refValue pcy e0) = []
        rw [he0, heq]
        have hp2 : pv ≠ Value.null := by
          intro hh
          exact hA (by rw [heq, hh])
        simp [scalarOps, hp2, hrem]
      · have hlop : scalarOps pcy pv (refValue pcy E) = [⟨.replace, [pcy], some pv⟩] := by
          simp [scalarOps, hA, hrem, heq]
        rw [hlop]
        have happ : applyOps e0 [(⟨.replace, [pcy], some pv⟩ : PatchOp)]
            = setKey e0 pcy pv := rfl
        rw [happ]
        have hv : refValue pcy (setKey e0 pcy pv) = pv := by
          simp [refValue, lookupKey_setKey_self, hpvnull]
        rw [hv]
        simp [scalarOps, hpvnull, hrem]

theorem paramOps1_idem (pn : String) (pv : Value) (E e0 : Entries) (l : List PatchOp)
    (hok : paramOps1 pn pv (refValue (translate pn) E) = .ok l)
    (hl : lookupKey e0 (translate pn) = lookupKey E (translate pn))
    (hchild : ∀ ch, pv = Value.dict ch → (ch.map (fun c => translate c.1)).Nodup) :
    paramOps1 pn pv (refValue (translate pn) (applyOps e0 l)) = .ok [] := by
  by_cases hf : pn ∈ ansible_specific_parameters ∨ pv = Value.null
  · simp [paramOps1, hf]
  · obtain ⟨hf1, hf2⟩ := not_or.mp hf
    have he0 : refValue (translate pn) e0 = refValue (translate pn) E :=
      refValue_congr (translate pn) e0 E hl
    cases pv with
    | null => exact absurd rfl hf2
    | dict ch =>
        cases hev : refValue (translate pn) E with
        | dict ed =>
            rw [hev] at hok
            simp [paramOps1, hf1, hf2] at hok
            subst hok
            have hE : lookupKey E (translate pn) = some (.dict ed) :=
              lookup_of_refValue_dict (translate pn) E ed hev
            have he0d : lookupKey e0 (translate pn) = some (.dict ed) := hl.trans hE
            have hLA : lookupKey (applyOps e0 (childOps pn (translate pn) ed ch))
                (translate pn)
                = some (.dict ((childOps pn (translate pn) ed ch).foldl innerPatch ed)) := by
              refine lookup_applyOps_two_seg (translate pn)
                (childOps pn (translate pn) ed ch) e0 ed ?_ he0d
              intro op hop
              obtain ⟨c, _, hp⟩ := childOps_path pn (translate pn) ed ch op hop
              exact ⟨translate c.1, hp⟩
            have hrv : refValue (translate pn)
                (applyOps e0 (childOps pn (translate pn) ed ch))
                = Value.dict ((childOps pn (translate pn) ed ch).foldl innerPatch ed) := by
              unfold refValue
              rw [hLA]
              rfl
            rw [hrv]
            simp [paramOps1, hf1, hf2]
            exact childOps_idem pn (translate pn) ed ch ed
              (hchild ch rfl) (fun c _ => rfl)
        | null =>
            rw [hev] at hok
            simp [paramOps1, hf1, hf2] at hok
            split_ifs at hok with hall
            simp at hok
            subst hok
            show paramOps1 pn (Value.dict ch) (refValue (translate pn) e0) = .ok []
            rw [he0, hev]
            simp [paramOps1, hf1, hf2, hall]
        | str s0 =>
            rw [hev] at hok
            simp [paramOps1, hf1, hf2] at hok
            split_ifs at hok with hall
            simp at hok
            subst hok
            show paramOps1 pn (Value.dict ch) (refValue (translate pn) e0) = .ok []
            rw [he0, hev]
            simp [paramOps1, hf1, hf2, hall]
        | bool b0 =>
            rw [hev] at hok
            simp [paramOps1, hf1, hf2] at hok
            split_ifs at hok with hall
            simp at hok
            subst hok
            show paramOps1 pn (Value.dict ch) (refValue (translate pn) e0) = .ok []
            rw [he0, hev]
            simp [paramOps1, hf1, hf2, hall]
        | int n0 =>
            rw [hev] at hok
            simp [paramOps1, hf1, hf2] at hok
            split_ifs at hok with hall
            simp at hok
            subst hok
            show paramOps1 pn (Value.dict ch) (refValue (translate pn) e0) = .ok []
            rw [he0, hev]
            simp [paramOps1, hf1, hf2, hall]
    | str s0 =>
        simp [paramOps1, hf1, hf2] at hok
        subst hok
        simp [paramOps1, hf1, hf2,
          scalar_idem (translate pn) (Value.str s0) E e0 (by simp) hl]
    | bool b0 =>
        simp [paramOps1, hf1, hf2] at hok
        subst hok
        simp [paramOps1, hf1, hf2,
          scalar_idem (translate pn) (Value.bool b0) E e0 (by simp) hl]
    | int n0 =>
        simp [paramOps1, hf1, hf2] at hok
        subst hok
        simp [paramOps1, hf1, hf2,
          scalar_idem (translate pn) (Value.int n0) E e0 (by simp) hl]

theorem update_ops_head (params : Entries) :
    ∀ (E : Entries) (ops : List PatchOp),
      update_account_ops params E = .ok ops →
      ∀ op ∈ ops, ∃ p ∈ params, op.path.head? = some (translate p.1) := by
  induction params with
  | nil =>
      intro E ops hok op hop
      simp [update_account_ops] at hok
      subst hok
      simp at hop
  | cons p rest ih =>
      intro E ops hok op hop
      cases hpo : paramOps1 p.1 p.2 (refValue (translate p.1) E) with
      | error err => simp [update_account_ops, hpo, exceptErrBind] at hok
      | ok l =>
          cases hrest : update_account_ops rest E with
          | error err => simp [update_account_ops, hpo, hrest, exceptOkBind, exceptMapError] at hok
          | ok ls =>
              have hops : ops = l ++ ls := by
                simp [update_account_ops, hpo, hrest, exceptOkBind, exceptMapOk] at hok
                exact hok.symm
              subst hops
              rcases List.mem_append.mp hop with h | h
              · exact ⟨p, List.mem_cons_self p rest, paramOps1_head p.1 p.2 _ l hpo op h⟩
              · obtain ⟨q, hq, hh⟩ := ih E ls hrest op h
                exact ⟨q, List.mem_cons_of_mem p hq, hh⟩

theorem update_ops_idem (params : Entries) :
    ∀ (E e0 : Entries) (ops : List PatchOp),
      (params.map (fun p => translate p.1)).Nodup →
      (∀ pn ch, (pn, Value.dict ch) ∈ params → (ch.map (fun c => translate c.1)).Nodup) →
      update_account_ops params E = .ok ops →
      (∀ p ∈ params, lookupKey e0 (translate p.1) = lookupKey E (translate p.1)) →
      update_account_ops params (applyOps e0 ops) = .ok [] := by
  induction params with
  | nil =>
      intro E e0 ops _ _ _ _
      rfl
  | cons p rest ih =>
      intro E e0 ops hnodup hchild hok hlk
      rw [List.map_cons] at hnodup
      have hnd := List.nodup_cons.mp hnodup
      cases hpo : paramOps1 p.1 p.2 (refValue (translate p.1) E) with
      | error err => simp [update_account_ops, hpo, exceptErrBind] at hok
      | ok l =>
          cases hrest : update_account_ops rest E with
          | error err => simp [update_account_ops, hpo, hrest, exceptOkBind, exceptMapError] at hok
          | ok ls =>
              have hops : ops = l ++ ls := by
                simp [update_account_ops, hpo, hrest, exceptOkBind, exceptMapOk] at hok
                exact hok.symm
              subst hops
              rw [applyOps_append]
              have hlheads : ∀ op ∈ l, op.path.head? = some (translate p.1) :=
                paramOps1_head p.1 p.2 _ l hpo
              have hlsheads : ∀ op ∈ ls, ∃ q ∈ rest, op.path.head? = some (translate q.1) :=
                update_ops_head rest E ls hrest
              have hp1 : lookupKey (applyOps (applyOps e0 l) ls) (translate p.1)
                  = lookupKey (applyOps e0 l) (translate p.1) := by
                refine lookup_applyOps_ne (translate p.1) ls (applyOps e0 l) ?_
                intro op hop
                obtain ⟨q, hq, hh⟩ := hlsheads op hop
                rw [hh]
                intro hc
                injection hc with hc2
                exact hnd.1 (hc2 ▸ List.mem_map_of_mem (fun c3 => translate c3.1) hq)
              have hpart1 : paramOps1 p.1 p.2
                  (refValue (translate p.1) (applyOps (applyOps e0 l) ls)) = .ok [] := by
                have hrv : refValue (translate p.1) (applyOps (applyOps e0 l) ls)
                    = refValue (translate p.1) (applyOps e0 l) :=
                  refValue_congr (translate p.1) _ _ hp1
                rw [hrv]
                refine paramOps1_idem p.1 p.2 E e0 l hpo
                  (hlk p (List.mem_cons_self p rest)) ?_
                intro ch hch
                refine hchild p.1 ch ?_
                have hpe : (p.1, Value.dict ch) = p := by
                  rw [← hch]
                rw [hpe]
                exact List.mem_cons_self p rest
              have hpart2 : update_account_ops rest (applyOps (applyOps e0 l) ls)
                  = .ok [] := by
                refine ih E (applyOps e0 l) ls hnd.2
                  (fun pn ch hch => hchild pn ch (List.mem_cons_of_mem p hch)) hrest ?_
                intro q hq
                have hql : lookupKey (applyOps e0 l) (translate q.1)
                    = lookupKey e0 (translate q.1) := by
                  refine lookup_applyOps_ne (translate q.1) l e0 ?_
                  intro op hop
                  rw [hlheads op hop]
                  intro hc
                  injection hc with hc2
                  refine hnd.1 ?_
                  rw [hc2]
                  exact List.mem_map_of_mem (fun c3 => translate c3.1) hq
                rw [hql]
                exact hlk q (List.mem_cons_of_mem p hq)
              simp [update_account_ops, hpart1, hpart2, exceptOkBind, exceptMapOk]

/-- C7 counterexample: two sub-object child names that translate to the
same vault field (safe and safeName inside the free-form
platform_account_properties dict) produce two operations on the same
path; after applying them, a second run still emits a replace, so the
builder is not idempotent for every desired field set. -/
theorem c7_counterexample :
    update_account_ops
        [("platform_account_properties", .dict [("safe", .str "x"), ("safeName", .str "y")])]
        [("platformAccountProperties", .dict [])]
      = .ok [⟨.add, ["platformAccountProperties", "safeName"], some (.str "x")⟩,
             ⟨.add, ["platformAccountProperties", "safeName"], some (.str "y")⟩]
    ∧ update_account_ops
        [("platform_account_properties", .dict [("safe", .str "x"), ("safeName", .str "y")])]
        (applyOps [("platformAccountProperties", .dict [])]
          [⟨.add, ["platformAccountProperties", "safeName"], some (.str "x")⟩,
           ⟨.add, ["platformAccountProperties", "safeName"], some (.str "y")⟩])
      = .ok [⟨.replace, ["platformAccountProperties", "safeName"], some (.str "x")⟩] := by
  exact ⟨by decide, by decide⟩

/-- C7 (amended): the patch builder is idempotent whenever it completes
and no two supplied names alias the same vault field: if the translated
top-level parameter names are pairwise distinct and, within each
dict-valued parameter, the translated child names are pairwise
distinct (both hold for the module argument specification), then
applying the produced operation list to the existing record and running
the builder again yields the empty operation list. -/
theorem c7_patch_builder_idempotent (params E : Entries) (ops : List PatchOp)
    (hnodup : (params.map (fun p => translate p.1)).Nodup)
    (hchild : ∀ pn ch, (pn, Value.dict ch) ∈ params →
      (ch.map (fun c => translate c.1)).Nodup)
    (hok : update_account_ops params E = .ok ops) :
    update_account_ops params (applyOps E ops) = .ok [] :=
  update_ops_idem params E E ops hnodup hchild hok (fun _ _ => rfl)

/-- C7 witness: a replace, a remove and a nested add, replayed on the
patched record, produce no further operations. -/
theorem c7_witness :
    update_account_ops
        [("address", .str "10.0.0.2"), ("username", .str "NO_VALUE"),
         ("platform_account_properties", .dict [("Port", .str "22")])]
        (applyOps
          [("id", .str "1"), ("address", .str "10.0.0.1"), ("userName", .str "u"),
           ("platformAccountProperties", .dict [])]
          [⟨.replace, ["address"], some (.str "10.0.0.2")⟩,
           ⟨.remove, ["userName"], none⟩,
           ⟨.add, ["platformAccountProperties", "Port"], some (.str "22")⟩])
      = .ok [] := by
  refine c7_patch_builder_idempotent _ _ _ (by decide) ?_ (by decide)
  intro pn ch h
  simp at h
  rw [h.2]
  decide

end CyberarkAccount
